import Mathlib

/-!
Shallow embedding of the Test Discovery & Execution Engine of the
vscode-catch2-test-adapter repository (sources: src/AbstractRunnable.ts,
src/AbstractTest.ts, src/RootSuite.ts, src/framework/GoogleTestRunnable.ts,
the DOC framework runnable and RunnableProperties).
Machine integers of the source are modelled as Nat/Int; JS object references
are modelled by structural values with decidable equality; fallible or
stateful code is modelled with Option and explicit state passing.
-/

/-- vscode.TestRunState values used by the engine (the vscode API enum). -/
inductive TestRunState where
  | unset
  | running
  | passed
  | failed
  | skippedState
  | errored
  deriving DecidableEq, Repr

/-- src/AbstractTest.ts StaticTestEventBase: state is 'errored' | 'passed' | 'failed'. -/
structure StaticTestEventBase where
  state : TestRunState
  message : String
  deriving DecidableEq, Repr

/-- Leaf test node (src/AbstractTest.ts AbstractTest): the fields the claims need.
`skippedFlag` is the private `_skipped` field, `markAsSkipped` is
`aRunnable.properties.markAsSkipped` (src/unnamed/part_002 RunnableProperties). -/
structure AbstractTest where
  id : Nat
  testNameAsId : String
  skippedFlag : Bool
  markAsSkipped : Bool
  staticEvent : Option StaticTestEventBase
  deriving DecidableEq, Repr

/-- src/AbstractTest.ts `get skipped()`: `this._skipped || this.aRunnable.properties.markAsSkipped`. -/
def AbstractTest.skipped (t : AbstractTest) : Bool :=
  t.skippedFlag || t.markAsSkipped

/-- src/AbstractTest.ts `collectTestToRun(tests, isParentIn, filter)`:
include the leaf iff `(isParentIn && !this.skipped) || tests.indexOf(this) !== -1`,
then apply the filter. `tests.indexOf` compares object references, modelled by
structural membership. -/
def AbstractTest.collectTestToRun (self : AbstractTest) (tests : List AbstractTest)
    (isParentIn : Bool) (filt : AbstractTest → Bool) : List AbstractTest :=
  if (isParentIn && !self.skipped) || tests.contains self then
    if filt self then [self] else []
  else
    []

/-- One entry of `Suite.children`: a child suite (with its display data) or a leaf test.
Suite.ts itself is not under src/.
Modelled from the spec: `getOrCreateGroup(label, description, tooltip)` is
"idempotent — returns the existing child if one matches by (label, description),
else creates and appends", so `Suite.compare(label, description)` is equality of
the (label, description) pair and `Suite.addSuite` appends to `children`. -/
inductive SuiteChild where
  | childSuite (label description tooltip : String)
  | childTest (t : AbstractTest)
  deriving DecidableEq, Repr

/-- The search condition of src/AbstractRunnable.ts `_getOrCreateChildSuite`:
`v.type === 'suite' && v.compare(label, description)`. -/
def SuiteChild.isMatchingSuite (label description : String) : SuiteChild → Bool
  | .childSuite l d _ => l == label && d == description
  | .childTest _ => false

/-- src/AbstractRunnable.ts `_getOrCreateChildSuite(label, description, tooltip, group)`:
find a matching child suite of the group, else create one and append it.
Returns the (found or created) child suite together with the new children list. -/
def _getOrCreateChildSuite (label description tooltip : String)
    (children : List SuiteChild) : SuiteChild × List SuiteChild :=
  match children.find? (SuiteChild.isMatchingSuite label description) with
  | some found => (found, children)
  | none =>
    let newG := SuiteChild.childSuite label description tooltip
    (newG, children ++ [newG])

/-- The sibling invariant of spec §3: at most one child suite per (label, description) pair. -/
def NoDupSiblingSuites (children : List SuiteChild) : Prop :=
  ∀ l d, (children.filter (SuiteChild.isMatchingSuite l d)).length ≤ 1

/-- The character budget of src/AbstractRunnable.ts `_splitTestsToSmallEnoughSubsets`. -/
def splitLimit : Nat := 30000

/-- Loop body of `_splitTestsToSmallEnoughSubsets`; the state is
(closed subsets, current lastSet, charCount). `charCount` is never reset,
exactly as in the source. -/
def splitStep (state : List (List AbstractTest) × List AbstractTest × Nat)
    (test : AbstractTest) : List (List AbstractTest) × List AbstractTest × Nat :=
  let (done, lastSet, charCount) := state
  if splitLimit ≤ charCount + test.testNameAsId.length then
    (done ++ [lastSet], [test], charCount + test.testNameAsId.length)
  else
    (done, lastSet ++ [test], charCount + test.testNameAsId.length)

/-- src/AbstractRunnable.ts `_splitTestsToSmallEnoughSubsets(tests)`: split the
batch into consecutive subsets; a new subset is opened whenever
`charCount + test.testNameAsId.length >= limit`. -/
def _splitTestsToSmallEnoughSubsets (tests : List AbstractTest) :
    List (List AbstractTest) :=
  let st := tests.foldl splitStep ([], [], 0)
  st.1 ++ [st.2.1]

/-- Cumulative testNameAsId character length of one subset. -/
def subsetCharCount (s : List AbstractTest) : Nat :=
  (s.map (fun t => t.testNameAsId.length)).sum

/-- JS `Math.round(a / b)` for nonnegative integers: floor(a/b + 1/2). -/
def jsRoundDiv (a b : Nat) : Nat := (2 * a + b) / (2 * b)

/-- The round-robin fill loop of `_splitTestSetForMultirunIfEnabled`:
`for (i < tests.length) buckets[i % buckets.length].push(tests[i])`, denoted as:
bucket j receives exactly the elements whose index is congruent to j mod n,
in index order. -/
def roundRobinFill (n : Nat) (tests : List AbstractTest) : List (List AbstractTest) :=
  (List.range n).map (fun j =>
    ((List.range tests.length).filter (fun i => i % n == j)).filterMap
      (fun i => tests.get? i))

/-- src/AbstractRunnable.ts `_splitTestSetForMultirunIfEnabled(tests)`.
`parallelizationLimit` is `properties.parallelizationPool.maxTaskCount` and
`totalKnownTestCount` is `this.tests.size` (all tests known for the executable,
not the requested selection). -/
def _splitTestSetForMultirunIfEnabled (parallelizationLimit totalKnownTestCount : Nat)
    (tests : List AbstractTest) : List (List AbstractTest) :=
  if 1 < parallelizationLimit then
    let testPerTask := max 1 (jsRoundDiv totalKnownTestCount parallelizationLimit)
    let targetTaskCount := min tests.length (max 1 (jsRoundDiv tests.length testPerTask))
    roundRobinFill targetTaskCount tests
  else
    [tests]

/-- A TestState assignment (src/AbstractTest.ts `TestState`): the run state and
the first message of the messages array, when one is attached. -/
structure TestStateEvent where
  state : TestRunState
  message : Option String
  deriving DecidableEq, Repr

/-- src/AbstractTest.ts `getCancelledEvent(testOutput)`: state Unset with the
stop-by-user message embedding the test output. -/
def getCancelledEvent (testOutput : String) : TestStateEvent :=
  { state := .unset,
    message := some ("⏹ Run is stopped by user. ✋" ++ "\n\nTest Output : R\"\"\""
      ++ testOutput ++ "\"\"\"") }

/-- src/AbstractTest.ts `getTimeoutEvent(milisec)`: state Errored with the
runtimeLimit message. The source renders `milisec / 1000` with JS float
division; only the embedded numeric value differs here, no claim inspects it. -/
def getTimeoutEvent (milisec : Nat) : TestStateEvent :=
  { state := .errored,
    message := some ("⌛️ Timed out: \"testMate.cpp.test.runtimeLimit\": "
      ++ toString (milisec / 1000) ++ " second(s).") }

/-- src/AbstractTest.ts `getFailedEventBase(testRunState, message)`. -/
def getFailedEventBase (testRunState : TestRunState) (message : String) : TestStateEvent :=
  { state := testRunState, message := some message }

/-- Modelled from the spec: `ProcessResult` (RunningRunnable.ts) is not under src/.
Spec §7 treats only an "unexpected exit code/signal" as a ProcessFault, so a zero
exit code carries no error and a non-zero exit code carries an exit diagnostic. -/
structure ProcessResult where
  error : Option String
  deriving DecidableEq, Repr

/-- Modelled from the spec: a successfully drained process has no error. -/
def ProcessResult.ok : ProcessResult := { error := none }

/-- Modelled from the spec: exit code 0 is a clean exit, any other exit code is a
process fault with a diagnostic. -/
def ProcessResult.createFromErrorCode (code : Int) : ProcessResult :=
  if code = 0 then ProcessResult.ok
  else { error := some ("Process exited with code " ++ toString code) }

/-- The context available to GoogleTestRunnable._handleProcess when the process
close resolves (src/framework/GoogleTestRunnable.ts lines 387-452): the
cancellation token, `runInfo.timeout`, the ProcessResult error, the parse state
(`data.*`) and the request size (`runInfo.childrenToRun.length`). -/
structure ProcessCloseInput where
  cancellationRequested : Bool
  timeout : Option Nat
  resultError : Option String
  currentTestCaseNameFull : Option String
  currentChildKnown : Bool
  stdoutAndErrBuffer : String
  processedCount : Nat
  childrenToRunCount : Nat
  unprocessedCount : Nat
  deriving DecidableEq, Repr

/-- The terminal event synthesized on process close when a test case is still
open (src/framework/GoogleTestRunnable.ts lines 390-413): cancellation beats
timeout beats the unexpected-error event, whose state is Errored exactly when
the ProcessResult carries an error and Failed otherwise, and whose message
embeds the error message and the buffered output. -/
def synthesizeTerminalEvent (inp : ProcessCloseInput) : Option TestStateEvent :=
  if inp.currentTestCaseNameFull.isSome then
    if inp.currentChildKnown then
      if inp.cancellationRequested then
        some (getCancelledEvent inp.stdoutAndErrBuffer)
      else
        match inp.timeout with
        | some t => some (getTimeoutEvent t)
        | none =>
          let state := if inp.resultError.isSome then TestRunState.errored
                       else TestRunState.failed
          let message := "😱 Unexpected error !!"
            ++ (match inp.resultError with
                | some e => "\n" ++ e
                | none => "")
            ++ (if inp.stdoutAndErrBuffer ≠ "" then
                  "\n\n>>>" ++ inp.stdoutAndErrBuffer ++ "<<<"
                else "")
          some (getFailedEventBase state message)
    else none
  else none

/-- src/framework/GoogleTestRunnable.ts lines 418-422: `isTestRemoved` — clean
exit (no timeout, no cancellation, no process error) with fewer processed test
cases than requested. -/
def isTestRemoved (inp : ProcessCloseInput) : Bool :=
  inp.timeout.isNone && !inp.cancellationRequested && inp.resultError.isNone
    && decide (inp.processedCount < inp.childrenToRunCount)

/-- src/framework/GoogleTestRunnable.ts line 424: `reloadTests` is invoked iff
`data.unprocessedTestCases.length > 0 || isTestRemoved`. -/
def reloadTestsInvoked (inp : ProcessCloseInput) : Bool :=
  decide (0 < inp.unprocessedCount) || isTestRemoved inp

/-- The per-runnable discovery state mutated by reloadTests
(src/AbstractRunnable.ts `_lastReloadTime`, `_tests`). -/
structure RunnableState where
  lastReloadTime : Option Nat
  tests : List AbstractTest
  deriving Repr

/-- src/AbstractRunnable.ts `RunnableReloadResult`: the tests reported by one
enumeration pass and whether any of them changed. -/
structure ReloadChildrenResult where
  tests : List AbstractTest
  changedAny : Bool
  deriving Repr

/-- What one reloadTests invocation did. -/
inductive ReloadOutcome where
  | cancelledNoop
  | skippedByMtime
  | reloaded (removed : List AbstractTest)
  deriving Repr

/-- src/AbstractRunnable.ts `reloadTests(taskPool, cancellationFlag)` (lines
507-533): return immediately on cancellation; otherwise compare the recorded
reload time with the executable's mtime and either skip, or run
`_reloadChildren` (whose result is a parameter here, it is abstract in
AbstractRunnable) and remove every known test absent from the result set. -/
def reloadTests (st : RunnableState) (cancellationRequested : Bool)
    (lastModiTime : Option Nat) (rc : ReloadChildrenResult) :
    ReloadOutcome × RunnableState :=
  if cancellationRequested then (.cancelledNoop, st)
  else if st.lastReloadTime.isNone || lastModiTime.isNone
        || st.lastReloadTime != lastModiTime then
    let st1 : RunnableState := { st with lastReloadTime := lastModiTime }
    let toRemove := st1.tests.filter (fun t => !rc.tests.contains t)
    if !toRemove.isEmpty || rc.changedAny then
      (.reloaded toRemove,
        { st1 with tests := st1.tests.filter (fun t => rc.tests.contains t) })
    else
      (.reloaded toRemove, st1)
  else (.skippedByMtime, st)

/-- src/AbstractTest.ts `getStaticEvent()`: emits an Errored state change only
when the test already carries a `_staticEvent`; otherwise does nothing. -/
def getStaticEvent_emits (t : AbstractTest) : Option TestStateEvent :=
  match t.staticEvent with
  | some se => some { state := .errored, message := some se.message }
  | none => none

/-- src/AbstractRunnable.ts `sendStaticEvents(testRunId, childrenToRun,
staticEvent)`: the body only calls `test.getStaticEvent()` on each child and
ignores the `staticEvent` argument (the source marks this with
"TODO: error reporting is not crrect here"). Returns the emitted events. -/
def sendStaticEvents (childrenToRun : List AbstractTest)
    (_staticEventArg : Option TestStateEvent) : List (AbstractTest × TestStateEvent) :=
  childrenToRun.filterMap (fun t => (getStaticEvent_emits t).map (fun ev => (t, ev)))

/-- src/AbstractRunnable.ts `sentStaticErrorEvent(testRunId, childrenToRun, err)`:
forwards to sendStaticEvents with a synthetic errored TestEvent. -/
def sentStaticErrorEvent (childrenToRun : List AbstractTest) (errMessage : String) :
    List (AbstractTest × TestStateEvent) :=
  sendStaticEvents childrenToRun
    (some { state := .errored, message := some ("⚡️ " ++ errMessage) })

/-- Outcome of the before-run stage of src/AbstractRunnable.ts `run`
(lines 545-551). -/
inductive RunOutcome where
  | abortedBeforeSpawn (events : List (AbstractTest × TestStateEvent))
  | proceeded
  deriving Repr

/-- src/AbstractRunnable.ts `runTasks('beforeEach', ...)`: sequential tasks,
throwing on the first task whose exit code is defined and non-zero. -/
def runTasksFail (taskExitCodes : List (Option Int)) : Bool :=
  taskExitCodes.any (fun c => match c with | some e => e ≠ 0 | none => false)

/-- The before-run stage of src/AbstractRunnable.ts `run`: if a before-run task
fails, `sentStaticErrorEvent` is called on the requested selection and the run
returns before any reload or process spawn. -/
def runBeforeEachStage (taskExitCodes : List (Option Int))
    (requested : List AbstractTest) : RunOutcome :=
  if runTasksFail taskExitCodes then
    .abortedBeforeSpawn (sentStaticErrorEvent requested "task failed")
  else
    .proceeded

/-- A running/completed transition of a Group; Groups (Suites) are identified by
reference in the source, modelled with Nat identifiers here. -/
inductive SuiteTransitionEvent where
  | runningEvent (suiteId : Nat)
  | completedEvent (suiteId : Nat)
  deriving DecidableEq, Repr

/-- src/AbstractRunnable.ts `sendMinimalEventsIfNeeded(testRunId, completed,
running)` (lines 758-777). `completed` is the previously active route and
`running` the new one, both ordered from the leaf's parent up to the root.
Returned is the list of `sendCompletedEventIfNeeded` / `sendRunningEventIfNeeded`
calls, in call order.
Modelled from the spec, because Util.ts is not under src/: `reverse(arr)(f)`
applies f to the elements of arr in reverse order (spec §5 orders newly-entered
ancestors outermost first, before the leaf's started-event). -/
def sendMinimalEventsIfNeeded (completed running : List Nat) :
    List SuiteTransitionEvent :=
  if completed.isEmpty then
    running.reverse.map .runningEvent
  else if running.isEmpty then
    completed.map .completedEvent
  else if completed.head? = running.head? then
    []
  else
    match completed.findIdx? (fun c => running.contains c) with
    | some completedIndex =>
      let runningIndex := running.indexOf (completed.getD completedIndex 0)
      (completed.take completedIndex).map .completedEvent
        ++ (running.take runningIndex).reverse.map .runningEvent
    | none => completed.map .completedEvent

/-- An event observable at the streaming parser boundary: a Group transition or
a leaf started-event. -/
inductive ParserEvent where
  | groupEvent (e : SuiteTransitionEvent)
  | startedEvent (testId : Nat)
  deriving DecidableEq, Repr

/-- src/framework/GoogleTestRunnable.ts `_handleProcess` lines 294-303: when a
test-begin marker matches a known test, the minimal group transition events are
emitted first and the leaf's started-event afterwards. -/
def onTestMatched (oldRoute newRoute : List Nat) (leafId : Nat) : List ParserEvent :=
  (sendMinimalEventsIfNeeded oldRoute newRoute).map .groupEvent
    ++ [.startedEvent leafId]

/-- The mutable base fields of src/AbstractTest.ts updated by `_updateBase`. -/
structure TestBaseFields where
  label : String
  file : Option String
  line : Option Nat
  skippedFlag : Bool
  tags : List String
  testDescription : Option String
  typeParam : Option String
  valueParam : Option String
  staticEvent : Option StaticTestEventBase
  deriving DecidableEq, Repr

/-- src/AbstractTest.ts `_updateBase` (lines 73-135): field-by-field update with
change detection. `normalize` stands for Node's `path.normalize` (an external
collaborator). The incoming tags replace the stored ones only when the
length-and-membership check reports a change, exactly as in the source; the
`_staticEvent !== staticEvent` reference comparison is modelled structurally
(the reload paths pass the test's own `_staticEvent` reference back, see
DOCTest.update in src/unnamed/part_000). -/
def _updateBase (normalize : String → String) (old : TestBaseFields)
    (label : String) (file : Option String) (line : Option Nat) (skippedArg : Bool)
    (tags : List String) (testDescription typeParam valueParam : Option String)
    (staticEvent : Option StaticTestEventBase) : Bool × TestBaseFields :=
  let newFile := file.map normalize
  let cLabel := old.label != label
  let cFile := old.file != newFile
  let cLine := old.line != line
  let cSkip := old.skippedFlag != skippedArg
  let cDescr := old.testDescription != testDescription
  let cTags := tags.length != old.tags.length || tags.any (fun t => !old.tags.contains t)
  let cType := old.typeParam != typeParam
  let cValue := old.valueParam != valueParam
  let cStatic := old.staticEvent != staticEvent
  (cLabel || cFile || cLine || cSkip || cDescr || cTags || cType || cValue || cStatic,
   { label := label
     file := newFile
     line := line
     skippedFlag := skippedArg
     tags := if cTags then tags else old.tags
     testDescription := testDescription
     typeParam := typeParam
     valueParam := valueParam
     staticEvent := staticEvent })

/-- The Test Tree below the root: Groups own an ordered children list, leaves
are tests. (Parent pointers of the source are non-owning back-references; the
children lists are the ownership edges, spec §9.) -/
inductive TTree where
  | leafTest (id : Nat)
  | group (gid : Nat) (children : List TTree)
  deriving Repr

/-- Number of occurrences of the test with identity `x` in a forest. -/
def forestTestCount (cs : List TTree) (x : Nat) : Nat :=
  match cs with
  | [] => 0
  | .leafTest i :: rest => (if i = x then 1 else 0) + forestTestCount rest x
  | .group _ gcs :: rest => forestTestCount gcs x + forestTestCount rest x

/-- Identifiers of the Groups of a forest that currently have no children. -/
def forestEmptyGroups (cs : List TTree) : List Nat :=
  match cs with
  | [] => []
  | .leafTest _ :: rest => forestEmptyGroups rest
  | .group g gcs :: rest =>
    (if gcs.isEmpty then [g] else []) ++ forestEmptyGroups gcs ++ forestEmptyGroups rest

/-- src/AbstractTest.ts `removeWithLeafAscendants` (lines 224-238) as a forest
operation: splice the test out of its parent's children, then
`parent.removeIfLeaf()`. Suite.removeIfLeaf is not under src/.
Modelled from the spec: "A Group with zero children after a removal is itself
removed (leaf-pruning), propagating upward" (§3). The source reaches the test
through its parent pointer; here the (unique) test is located by identity, the
first occurrence in depth-first order. Returns none when the test is absent. -/
def forestRemove (cs : List TTree) (x : Nat) : Option (List TTree) :=
  match cs with
  | [] => none
  | .leafTest i :: rest =>
    if i = x then some rest
    else match forestRemove rest x with
      | none => none
      | some rest' => some (.leafTest i :: rest')
  | .group g gcs :: rest =>
    match forestRemove gcs x with
    | some gcs' =>
      if gcs'.isEmpty then some rest else some (.group g gcs' :: rest)
    | none =>
      match forestRemove rest x with
      | none => none
      | some rest' => some (.group g gcs :: rest')

/-- Removal at the root: the root Group is long-lived (spec §3) and is never
pruned, so an absent test leaves the forest unchanged. -/
def forestRemoveRoot (cs : List TTree) (x : Nat) : List TTree :=
  match forestRemove cs x with
  | some cs' => cs'
  | none => cs

/-- A test name of 30001 characters, one more than the batch character budget. -/
def longName : String := String.mk (List.replicate 30001 'a')

/-- A concrete plain test (not skipped, no static event) with identifier i. -/
def sampleTest (i : Nat) : AbstractTest :=
  { id := i
    testNameAsId := "Suite.A" ++ toString i
    skippedFlag := false
    markAsSkipped := false
    staticEvent := none }

/-- A concrete framework-skipped test. -/
def sampleSkippedTest : AbstractTest :=
  { id := 100
    testNameAsId := "Suite.Skipped"
    skippedFlag := true
    markAsSkipped := false
    staticEvent := none }

/-- A concrete test whose identity string exceeds the batch character budget. -/
def longNameTest : AbstractTest :=
  { id := 0
    testNameAsId := longName
    skippedFlag := false
    markAsSkipped := false
    staticEvent := none }

/-- Close context of a run that was neither cancelled nor timed out and whose
process exited with code 0 while test "Suite.A" was still open. -/
def c1CloseInput : ProcessCloseInput :=
  { cancellationRequested := false
    timeout := none
    resultError := (ProcessResult.createFromErrorCode 0).error
    currentTestCaseNameFull := some "Suite.A"
    currentChildKnown := true
    stdoutAndErrBuffer := "some output of the still open test case"
    processedCount := 0
    childrenToRunCount := 1
    unprocessedCount := 0 }

/-! Theorems. -/

/-- C10: a test reached only because an ancestor was selected (isParentIn) is
excluded when it is skipped (framework-reported or markAsSkipped), while a test
explicitly listed in the requested set is included even if skipped (subject
only to the runnable filter). -/
theorem c10_collectTestToRun_selection (self : AbstractTest)
    (tests : List AbstractTest) (filt : AbstractTest → Bool) :
    (self.skipped = true → self ∉ tests →
      self.collectTestToRun tests true filt = [])
    ∧ (self ∈ tests → filt self = true →
      self.collectTestToRun tests true filt = [self]
      ∧ self.collectTestToRun tests false filt = [self]) := by
  constructor
  · intro hsk hmem
    simp [AbstractTest.collectTestToRun, hsk, hmem]
  · intro hmem hf
    simp [AbstractTest.collectTestToRun, hmem, hf]

/-- C10 witness: a concrete skipped test reached through its parent is dropped,
and the same test is kept when explicitly requested. -/
theorem c10_collectTestToRun_selection_witness :
    (sampleSkippedTest.skipped = true
      ∧ sampleSkippedTest ∉ [sampleTest 1]
      ∧ AbstractTest.collectTestToRun sampleSkippedTest [sampleTest 1] true
          (fun _ => true) = [])
    ∧ (sampleSkippedTest ∈ [sampleSkippedTest]
      ∧ AbstractTest.collectTestToRun sampleSkippedTest [sampleSkippedTest] true
          (fun _ => true) = [sampleSkippedTest]) :=
  ⟨⟨by decide, by decide,
    (c10_collectTestToRun_selection sampleSkippedTest [sampleTest 1]
      (fun _ => true)).1 (by decide) (by decide)⟩,
   ⟨by decide,
    ((c10_collectTestToRun_selection sampleSkippedTest [sampleSkippedTest]
      (fun _ => true)).2 (by decide) (by decide)).1⟩⟩

/-- C9: `_getOrCreateChildSuite` returns a child matching the requested
(label, description) pair; it returns the existing child unchanged when one
matches, otherwise it appends exactly one new child; and it preserves the
no-duplicate-sibling-suite invariant. -/
theorem c9_getOrCreateChildSuite_spec (l d tt : String) (children : List SuiteChild)
    (h : NoDupSiblingSuites children) :
    (_getOrCreateChildSuite l d tt children).1.isMatchingSuite l d = true
    ∧ (∀ found, children.find? (SuiteChild.isMatchingSuite l d) = some found →
        _getOrCreateChildSuite l d tt children = (found, children))
    ∧ (children.find? (SuiteChild.isMatchingSuite l d) = none →
        (_getOrCreateChildSuite l d tt children).2
          = children ++ [SuiteChild.childSuite l d tt])
    ∧ NoDupSiblingSuites (_getOrCreateChildSuite l d tt children).2 := by
  cases hfind : children.find? (SuiteChild.isMatchingSuite l d) with
  | some found =>
    refine ⟨?_, ?_, ?_, ?_⟩
    · simpa [_getOrCreateChildSuite, hfind] using List.find?_some hfind
    · intro f hf
      simp only [hfind, Option.some.injEq] at hf
      simp [_getOrCreateChildSuite, hfind, hf]
    · intro hnone
      simp [hfind] at hnone
    · simpa [_getOrCreateChildSuite, hfind] using h
  | none =>
    have hall : ∀ x ∈ children, ¬ SuiteChild.isMatchingSuite l d x = true :=
      fun x hx => by simpa using List.find?_eq_none.mp hfind x hx
    refine ⟨?_, ?_, ?_, ?_⟩
    · simp [_getOrCreateChildSuite, hfind, SuiteChild.isMatchingSuite]
    · intro f hf
      simp [hfind] at hf
    · intro _
      simp [_getOrCreateChildSuite, hfind]
    · intro l' d'
      simp only [_getOrCreateChildSuite, hfind, List.filter_append]
      by_cases hmatch :
          SuiteChild.isMatchingSuite l' d' (SuiteChild.childSuite l d tt) = true
      · have hld : l = l' ∧ d = d' := by
          simpa [SuiteChild.isMatchingSuite] using hmatch
        have hnilf : children.filter (SuiteChild.isMatchingSuite l' d') = [] := by
          refine List.filter_eq_nil_iff.mpr ?_
          intro x hx
          rw [← hld.1, ← hld.2]
          exact hall x hx
        simp [hnilf, hmatch]
      · have h1 := h l' d'
        simp only [Bool.not_eq_true] at hmatch
        simp [List.filter_cons, hmatch]
        omega

/-- C9 witness: requesting an existing (label, description) pair returns the
existing child and leaves the children untouched. -/
theorem c9_getOrCreateChildSuite_spec_witness :
    NoDupSiblingSuites [SuiteChild.childSuite "exe" "dir" "tip"]
    ∧ NoDupSiblingSuites
        (_getOrCreateChildSuite "exe" "dir" "tip"
          [SuiteChild.childSuite "exe" "dir" "tip"]).2 :=
  have hnd : NoDupSiblingSuites [SuiteChild.childSuite "exe" "dir" "tip"] :=
    fun l d => le_trans (List.length_filter_le _ _) (by simp)
  ⟨hnd,
   (c9_getOrCreateChildSuite_spec "exe" "dir" "tip"
     [SuiteChild.childSuite "exe" "dir" "tip"] hnd).2.2.2⟩

/-- C5 (code bug evaluation): with a before-run task exiting 1 and a plain
requested test, the run aborts before any spawn, but the synthesized event list
is empty — `sendStaticEvents` ignores its staticEvent argument and
`getStaticEvent` emits nothing for a test without a pre-existing static event,
so no errored event reaches the requested test. -/
theorem c5_abort_no_event_eval :
    runBeforeEachStage [some 1] [sampleTest 1]
      = .abortedBeforeSpawn ([] : List (AbstractTest × TestStateEvent))
    ∧ (sampleTest 1).staticEvent = none
    ∧ sentStaticErrorEvent [sampleTest 1] "task failed" = [] := by
  refine ⟨?_, rfl, rfl⟩
  rfl

/-- C2: after the output stream ends, `reloadTests` is invoked iff there are
buffered orphan test-case payloads, or the process exited with no timeout, no
cancellation and no process error while strictly fewer test cases were
processed than requested; and a reloadTests call whose cancellation token is
triggered does nothing (no re-discovery on cancellation). -/
theorem c2_rediscovery_iff (inp : ProcessCloseInput) :
    (reloadTestsInvoked inp = true ↔
      (0 < inp.unprocessedCount
        ∨ (inp.timeout = none ∧ inp.cancellationRequested = false
            ∧ inp.resultError = none
            ∧ inp.processedCount < inp.childrenToRunCount)))
    ∧ (∀ st mtime rc, reloadTests st true mtime rc = (.cancelledNoop, st)) := by
  constructor
  · simp [reloadTestsInvoked, isTestRemoved, Option.isNone_iff_eq_none,
      and_assoc]
  · intro st mtime rc
    simp [reloadTests]

/-- C1 counterexample: a run that was neither cancelled nor timed out and whose
process exited cleanly (code 0) while a known test case was still open gets a
synthesized terminal event whose state is Failed, not Errored — the claim's
"otherwise an errored event" does not hold at this input. -/
theorem c1_errored_state_counterexample :
    (synthesizeTerminalEvent c1CloseInput).map TestStateEvent.state
      = some TestRunState.failed
    ∧ TestRunState.failed ≠ TestRunState.errored := by
  refine ⟨rfl, by decide⟩

/-- C1 (amended): when the output stream ends while a test case is open with a
known current TestNode, exactly one terminal event is synthesized: the
cancelled event if the cancellation token was triggered, else the timeout event
if the run timeout fired, and otherwise a failure event whose state is Errored
exactly when a process exit diagnostic exists (Failed otherwise) and whose
message embeds any exit diagnostic and the captured output buffer. -/
theorem c1_terminal_event_amended (inp : ProcessCloseInput)
    (hopen : inp.currentTestCaseNameFull.isSome = true)
    (hknown : inp.currentChildKnown = true) :
    ∃ ev, synthesizeTerminalEvent inp = some ev
      ∧ (inp.cancellationRequested = true →
          ev = getCancelledEvent inp.stdoutAndErrBuffer)
      ∧ (∀ t, inp.cancellationRequested = false → inp.timeout = some t →
          ev = getTimeoutEvent t)
      ∧ (inp.cancellationRequested = false → inp.timeout = none →
          ev.state = (if inp.resultError.isSome then TestRunState.errored
                      else TestRunState.failed)
          ∧ (∀ e, inp.resultError = some e →
              ∃ pre post, ev.message = some (pre ++ e ++ post))
          ∧ (inp.stdoutAndErrBuffer ≠ "" →
              ∃ pre post,
                ev.message = some (pre ++ inp.stdoutAndErrBuffer ++ post))) := by
  cases hcanc : inp.cancellationRequested with
  | true =>
    refine ⟨getCancelledEvent inp.stdoutAndErrBuffer, ?_, ?_, ?_, ?_⟩
    · simp [synthesizeTerminalEvent, hopen, hknown, hcanc]
    · intro _; rfl
    · intro t h _; simp [hcanc] at h
    · intro h; simp [hcanc] at h
  | false =>
    cases htime : inp.timeout with
    | some t =>
      refine ⟨getTimeoutEvent t, ?_, ?_, ?_, ?_⟩
      · simp [synthesizeTerminalEvent, hopen, hknown, hcanc, htime]
      · intro h; simp [hcanc] at h
      · intro t' _ ht'
        simp only [Option.some.injEq] at ht'
        rw [ht']
      · intro _ hnone; simp at hnone
    | none =>
      cases herr : inp.resultError with
      | some e =>
        refine ⟨getFailedEventBase TestRunState.errored
          ("😱 Unexpected error !!" ++ ("\n" ++ e)
            ++ (if inp.stdoutAndErrBuffer ≠ "" then
                  "\n\n>>>" ++ inp.stdoutAndErrBuffer ++ "<<<"
                else "")), ?_, ?_, ?_, ?_⟩
        · simp [synthesizeTerminalEvent, hopen, hknown, hcanc, htime, herr]
        · intro h; simp [hcanc] at h
        · intro t' _ ht'; simp at ht'
        · intro _ _
          refine ⟨by simp [getFailedEventBase], ?_, ?_⟩
          · intro e' he'
            simp only [Option.some.injEq] at he'
            subst he'
            refine ⟨"😱 Unexpected error !!" ++ "\n",
              (if inp.stdoutAndErrBuffer ≠ "" then
                "\n\n>>>" ++ inp.stdoutAndErrBuffer ++ "<<<"
              else ""), ?_⟩
            simp only [getFailedEventBase, Option.some.injEq, String.append_assoc]
          · intro hbuf
            refine ⟨"😱 Unexpected error !!" ++ ("\n" ++ e) ++ "\n\n>>>", "<<<", ?_⟩
            simp only [getFailedEventBase, hbuf, if_true, ne_eq,
              not_false_iff, Option.some.injEq, String.append_assoc]
      | none =>
        refine ⟨getFailedEventBase TestRunState.failed
          ("😱 Unexpected error !!" ++ ""
            ++ (if inp.stdoutAndErrBuffer ≠ "" then
                  "\n\n>>>" ++ inp.stdoutAndErrBuffer ++ "<<<"
                else "")), ?_, ?_, ?_, ?_⟩
        · simp [synthesizeTerminalEvent, hopen, hknown, hcanc, htime, herr]
        · intro h; simp [hcanc] at h
        · intro t' _ ht'; simp at ht'
        · intro _ _
          refine ⟨by simp [getFailedEventBase], ?_, ?_⟩
          · intro e' he'; simp at he'
          · intro hbuf
            refine ⟨"😱 Unexpected error !!" ++ "" ++ "\n\n>>>", "<<<", ?_⟩
            simp only [getFailedEventBase, hbuf, if_true, ne_eq,
              not_false_iff, Option.some.injEq, String.append_assoc]

/-- C1 witness: the amended statement applied to a run cancelled with test
"Suite.A" still open. -/
theorem c1_terminal_event_amended_witness :
    ((some "Suite.A" : Option String).isSome = true ∧ true = true)
    ∧ (∃ ev,
        synthesizeTerminalEvent
          { cancellationRequested := true
            timeout := none
            resultError := none
            currentTestCaseNameFull := some "Suite.A"
            currentChildKnown := true
            stdoutAndErrBuffer := "tail"
            processedCount := 0
            childrenToRunCount := 1
            unprocessedCount := 0 } = some ev
        ∧ (true = true → ev = getCancelledEvent "tail")
        ∧ (∀ t, true = false → (none : Option Nat) = some t → ev = getTimeoutEvent t)
        ∧ (true = false → (none : Option Nat) = none →
            ev.state = (if (none : Option String).isSome then TestRunState.errored
                        else TestRunState.failed)
            ∧ (∀ e, (none : Option String) = some e →
                ∃ pre post, ev.message = some (pre ++ e ++ post))
            ∧ (("tail" : String) ≠ "" →
                ∃ pre post, ev.message = some (pre ++ "tail" ++ post)))) :=
  ⟨⟨rfl, rfl⟩, c1_terminal_event_amended _ rfl rfl⟩

/-- Length of the oversized test name. -/
theorem longName_length : longName.length = 30001 := by
  have h1 : longName.length = (List.replicate 30001 'a').length := rfl
  rw [h1, List.length_replicate]

/-- Length of the oversized test's identity string. -/
theorem longNameTest_length : longNameTest.testNameAsId.length = 30001 := by
  rw [show longNameTest.testNameAsId = longName from rfl]
  exact longName_length

/-- C4 counterexample: a single test whose identity string has 30001 characters
ends up in a sub-batch whose cumulative identity length exceeds the
30000-character limit, refuting the claimed bound. -/
theorem c4_length_bound_counterexample :
    ¬ (∀ s ∈ _splitTestsToSmallEnoughSubsets [longNameTest],
        subsetCharCount s ≤ 30000) := by
  intro h
  have heval : _splitTestsToSmallEnoughSubsets [longNameTest]
      = [[], [longNameTest]] := by
    unfold _splitTestsToSmallEnoughSubsets
    rw [List.foldl_cons, List.foldl_nil, splitStep]
    rw [if_pos (by rw [longNameTest_length]; decide)]
    rfl
  have hs := h [longNameTest] (by rw [heval]; simp)
  rw [show subsetCharCount [longNameTest] = 30001 by
    simp [subsetCharCount, longNameTest_length]] at hs
  omega

/-- Invariant of the split loop: the cumulative length of the open subset never
exceeds the running charCount, and a subset that received a second element did
so below the limit. -/
theorem splitFold_bound (tests : List AbstractTest)
    (done : List (List AbstractTest)) (lastSet : List AbstractTest) (charCount : Nat)
    (hle : subsetCharCount lastSet ≤ charCount)
    (hlast : 2 ≤ lastSet.length → subsetCharCount lastSet < splitLimit)
    (hdone : ∀ s ∈ done, 2 ≤ s.length → subsetCharCount s < splitLimit) :
    ∀ s ∈ (tests.foldl splitStep (done, lastSet, charCount)).1
        ++ [(tests.foldl splitStep (done, lastSet, charCount)).2.1],
      2 ≤ s.length → subsetCharCount s < splitLimit := by
  induction tests generalizing done lastSet charCount with
  | nil =>
    intro s hs
    simp only [List.foldl_nil, List.mem_append, List.mem_singleton] at hs
    rcases hs with hs | hs
    · exact hdone s hs
    · rw [hs]; exact hlast
  | cons t ts ih =>
    simp only [List.foldl_cons]
    rw [splitStep]
    by_cases hcond : splitLimit ≤ charCount + t.testNameAsId.length
    · rw [if_pos hcond]
      refine ih (done ++ [lastSet]) [t] (charCount + t.testNameAsId.length) ?_ ?_ ?_
      · simp only [subsetCharCount, List.map_cons, List.map_nil, List.sum_cons,
          List.sum_nil]
        omega
      · intro h2; simp at h2
      · intro s hs
        simp only [List.mem_append, List.mem_singleton] at hs
        rcases hs with hs | hs
        · exact hdone s hs
        · rw [hs]; exact hlast
    · rw [if_neg hcond]
      refine ih done (lastSet ++ [t]) (charCount + t.testNameAsId.length) ?_ ?_ hdone
      · simp only [subsetCharCount, List.map_append, List.sum_append,
          List.map_cons, List.map_nil, List.sum_cons, List.sum_nil]
        simp only [subsetCharCount] at hle
        omega
      · intro _
        have hsum : subsetCharCount (lastSet ++ [t])
            = subsetCharCount lastSet + t.testNameAsId.length := by
          simp [subsetCharCount]
        omega

/-- The split loop only redistributes: flattening the closed subsets with the
open one yields the already-processed tests in order. -/
theorem splitFold_join (tests : List AbstractTest)
    (done : List (List AbstractTest)) (lastSet : List AbstractTest) (charCount : Nat) :
    (tests.foldl splitStep (done, lastSet, charCount)).1.flatten
        ++ (tests.foldl splitStep (done, lastSet, charCount)).2.1
      = done.flatten ++ lastSet ++ tests := by
  induction tests generalizing done lastSet charCount with
  | nil => simp
  | cons t ts ih =>
    simp only [List.foldl_cons]
    rw [splitStep]
    by_cases hcond : splitLimit ≤ charCount + t.testNameAsId.length
    · rw [if_pos hcond, ih]
      simp
    · rw [if_neg hcond, ih]
      simp

/-- C4 (amended): the sub-batches concatenate to the input list in order, and
every sub-batch holding at least two tests stays strictly below the
30000-character budget; only a sub-batch that is a lone test whose own identity
reaches the limit can exceed it. -/
theorem c4_split_amended (tests : List AbstractTest) :
    (_splitTestsToSmallEnoughSubsets tests).flatten = tests
    ∧ ∀ s ∈ _splitTestsToSmallEnoughSubsets tests, 2 ≤ s.length →
        subsetCharCount s < splitLimit := by
  constructor
  · have h := splitFold_join tests [] [] 0
    simp only [List.flatten_nil, List.nil_append] at h
    simpa [_splitTestsToSmallEnoughSubsets] using h
  · intro s hs
    refine splitFold_bound tests [] [] 0 (by simp [subsetCharCount]) ?_ (by simp) s ?_
    · intro h2; simp at h2
    · simpa [_splitTestsToSmallEnoughSubsets] using hs

/-- C4 witness: a two-test batch with short names stays in one sub-batch below
the limit. -/
theorem c4_split_amended_witness :
    [sampleTest 1, sampleTest 2]
        ∈ _splitTestsToSmallEnoughSubsets [sampleTest 1, sampleTest 2]
    ∧ subsetCharCount [sampleTest 1, sampleTest 2] < splitLimit :=
  ⟨by decide,
   (c4_split_amended [sampleTest 1, sampleTest 2]).2
     [sampleTest 1, sampleTest 2] (by decide) (by decide)⟩

/-- C8 counterexample: with a per-executable parallelization limit of 3, three
known tests and a requested selection of one test, the selection is split into
a single bucket, not into 3 buckets ("as many buckets as simultaneous
invocations are allowed"). -/
theorem c8_bucket_count_counterexample :
    (_splitTestSetForMultirunIfEnabled 3 3 [sampleTest 1]).length = 1
    ∧ (1 : Nat) ≠ 3 :=
  ⟨rfl, by decide⟩

/-- Every element of a round-robin bucket comes from the input list at an index
of the bucket's residue class. -/
theorem roundRobinFill_mem_elim {n : Nat} {tests b : List AbstractTest}
    {x : AbstractTest} (hb : b ∈ roundRobinFill n tests) (hx : x ∈ b) :
    ∃ j i, j < n ∧ i < tests.length ∧ i % n = j ∧ tests.get? i = some x := by
  unfold roundRobinFill at hb
  rw [List.mem_map] at hb
  obtain ⟨j, hj, rfl⟩ := hb
  rw [List.mem_range] at hj
  rw [List.mem_filterMap] at hx
  obtain ⟨i, hi, hget⟩ := hx
  rw [List.mem_filter, List.mem_range] at hi
  exact ⟨j, i, hj, hi.1, by simpa using hi.2, hget⟩

/-- Every input element lands in the bucket of its index's residue class. -/
theorem roundRobinFill_mem_intro {n : Nat} {tests : List AbstractTest}
    {x : AbstractTest} (hn : 0 < n) (hx : x ∈ tests) :
    ∃ b ∈ roundRobinFill n tests, x ∈ b := by
  obtain ⟨i, hget⟩ := List.mem_iff_get?.mp hx
  have hi : i < tests.length := by
    rcases List.get?_eq_some.mp hget with ⟨h, _⟩
    exact h
  refine ⟨_, List.mem_map.mpr ⟨i % n, List.mem_range.mpr (Nat.mod_lt _ hn), rfl⟩, ?_⟩
  rw [List.mem_filterMap]
  refine ⟨i, ?_, hget⟩
  rw [List.mem_filter, List.mem_range]
  exact ⟨hi, by simp⟩

/-- Distinct round-robin buckets of a duplicate-free list are disjoint. -/
theorem roundRobinFill_pairwise {n : Nat} {tests : List AbstractTest}
    (hnd : tests.Nodup) :
    (roundRobinFill n tests).Pairwise (fun b1 b2 => ∀ x ∈ b1, x ∉ b2) := by
  unfold roundRobinFill
  rw [List.pairwise_map]
  refine List.Pairwise.imp ?_ (List.pairwise_lt_range n)
  intro j1 j2 hlt x hx1 hx2
  rw [List.mem_filterMap] at hx1 hx2
  obtain ⟨i1, hi1, hg1⟩ := hx1
  obtain ⟨i2, hi2, hg2⟩ := hx2
  rw [List.mem_filter, List.mem_range] at hi1 hi2
  have e1 : i1 % n = j1 := by simpa using hi1.2
  have e2 : i2 % n = j2 := by simpa using hi2.2
  have hij : i1 = i2 := by
    apply List.getElem?_inj hi1.1 hnd
    rw [← List.get?_eq_getElem?, ← List.get?_eq_getElem?, hg1, hg2]
  subst hij
  omega

/-- C8 (amended): the buckets of `_splitTestSetForMultirunIfEnabled` together
contain exactly the requested selection, and for a duplicate-free selection the
buckets are pairwise disjoint; when the limit exceeds 1 the bucket count is
capped by the selection size and by the selection-to-testPerTask ratio, so it
can be smaller than the parallelization limit. -/
theorem c8_partition_amended (limit total : Nat) (tests : List AbstractTest) :
    (∀ x, (∃ b ∈ _splitTestSetForMultirunIfEnabled limit total tests, x ∈ b)
      ↔ x ∈ tests)
    ∧ (tests.Nodup →
        (_splitTestSetForMultirunIfEnabled limit total tests).Pairwise
          (fun b1 b2 => ∀ x ∈ b1, x ∉ b2)) := by
  unfold _splitTestSetForMultirunIfEnabled
  by_cases hp : 1 < limit
  · rw [if_pos hp]
    dsimp only
    constructor
    · intro x
      constructor
      · rintro ⟨b, hb, hx⟩
        obtain ⟨j, i, _, _, _, hget⟩ := roundRobinFill_mem_elim hb hx
        exact List.get?_mem hget
      · intro hx
        have hlen : 0 < tests.length := List.length_pos.mpr (List.ne_nil_of_mem hx)
        have hn0 : 0 < min tests.length
            (max 1 (jsRoundDiv tests.length (max 1 (jsRoundDiv total limit)))) := by
          omega
        exact roundRobinFill_mem_intro hn0 hx
    · intro hnd
      exact roundRobinFill_pairwise hnd
  · rw [if_neg hp]
    constructor
    · intro x
      simp
    · intro _
      simp

/-- C8 witness: two buckets of a three-test duplicate-free selection under
limit 2 are disjoint. -/
theorem c8_partition_amended_witness :
    ([sampleTest 1, sampleTest 2, sampleTest 3] : List AbstractTest).Nodup
    ∧ (_splitTestSetForMultirunIfEnabled 2 3
        [sampleTest 1, sampleTest 2, sampleTest 3]).Pairwise
        (fun b1 b2 => ∀ x ∈ b1, x ∉ b2) :=
  ⟨by decide,
   (c8_partition_amended 2 3 [sampleTest 1, sampleTest 2, sampleTest 3]).2
     (by decide)⟩

/-- C6: re-discovery is idempotent. When the recorded reload time equals the
executable's modification time the reload is skipped entirely; when the
enumeration reports exactly the already-known tests with no change, no test is
removed and the test set is unchanged; and `_updateBase` applied to unchanged
tuple data reports no change and leaves every field as it was. -/
theorem c6_reload_idempotent :
    (∀ (st : RunnableState) (rc : ReloadChildrenResult) (t : Nat),
      st.lastReloadTime = some t →
        reloadTests st false (some t) rc = (ReloadOutcome.skippedByMtime, st))
    ∧ (∀ (st : RunnableState) (mtime : Option Nat) (rc : ReloadChildrenResult),
        (∀ x ∈ st.tests, x ∈ rc.tests) → rc.changedAny = false →
          (reloadTests st false mtime rc).2.tests = st.tests
          ∧ (∀ rem, (reloadTests st false mtime rc).1 = ReloadOutcome.reloaded rem →
              rem = []))
    ∧ (∀ (normalize : String → String) (old : TestBaseFields) (file : Option String)
        (tags : List String),
        old.file = file.map normalize → old.tags = tags →
        _updateBase normalize old old.label file old.line old.skippedFlag tags
          old.testDescription old.typeParam old.valueParam old.staticEvent
          = (false, old)) := by
  refine ⟨?_, ?_, ?_⟩
  · intro st rc t ht
    simp [reloadTests, ht]
  · intro st mtime rc hsub hch
    have hfilt : st.tests.filter (fun t => !rc.tests.contains t) = [] := by
      refine List.filter_eq_nil_iff.mpr ?_
      intro x hx
      simp only [Bool.not_eq_true', Bool.not_eq_false]
      exact List.elem_eq_true_of_mem (hsub x hx)
    unfold reloadTests
    by_cases hcond : (st.lastReloadTime.isNone || mtime.isNone
        || st.lastReloadTime != mtime) = true
    · rw [if_neg (by simp), if_pos hcond]
      dsimp only
      rw [hfilt, hch]
      simp
    · rw [if_neg (by simp), if_neg hcond]
      exact ⟨rfl, fun rem h => by simp at h⟩
  · intro normalize old file tags hfile htags
    subst htags
    unfold _updateBase
    have hany : old.tags.any (fun t => !old.tags.contains t) = false := by
      simp only [List.any_eq_false]
      intro x hx
      simp only [Bool.not_eq_true', Bool.not_eq_false]
      exact List.elem_eq_true_of_mem hx
    rw [← hfile]
    simp [hany]

/-- C6 witness: a matching modification time skips the reload; an unchanged
enumeration leaves the test set untouched; an unchanged tuple reports no
change. -/
theorem c6_reload_idempotent_witness :
    ((⟨some 5, [sampleTest 1]⟩ : RunnableState).lastReloadTime = some 5
      ∧ reloadTests ⟨some 5, [sampleTest 1]⟩ false (some 5) ⟨[sampleTest 1], false⟩
          = (ReloadOutcome.skippedByMtime, ⟨some 5, [sampleTest 1]⟩))
    ∧ (reloadTests ⟨some 9, [sampleTest 1]⟩ false (some 5)
          ⟨[sampleTest 1], false⟩).2.tests = [sampleTest 1]
    ∧ _updateBase (fun s => s) ⟨"L", none, none, false, [], none, none, none, none⟩
        "L" none none false [] none none none none
        = (false, ⟨"L", none, none, false, [], none, none, none, none⟩) :=
  ⟨⟨rfl, c6_reload_idempotent.1 ⟨some 5, [sampleTest 1]⟩ ⟨[sampleTest 1], false⟩ 5 rfl⟩,
   (c6_reload_idempotent.2.1 ⟨some 9, [sampleTest 1]⟩ (some 5) ⟨[sampleTest 1], false⟩
      (fun _ hx => hx) rfl).1,
   c6_reload_idempotent.2.2 (fun s => s)
     ⟨"L", none, none, false, [], none, none, none, none⟩ none [] rfl rfl⟩

set_option maxHeartbeats 1000000 in
theorem forestRemove_spec (cs : List TTree) (x : Nat) :
    ∀ cs', forestRemove cs x = some cs' →
      forestTestCount cs' x + 1 = forestTestCount cs x
      ∧ (∀ y, y ≠ x → forestTestCount cs' y = forestTestCount cs y)
      ∧ (∀ g, g ∈ forestEmptyGroups cs' → g ∈ forestEmptyGroups cs) := by
  induction cs, x using forestRemove.induct with
  | case1 x =>
    intro cs' h
    simp [forestRemove] at h
  | case2 i rest =>
    intro cs' h
    simp [forestRemove] at h
    subst h
    refine ⟨by simp [forestTestCount, Nat.add_comm], ?_, ?_⟩
    · intro y hy
      simp [forestTestCount, Ne.symm hy]
    · intro g hg
      simpa [forestEmptyGroups] using hg
  | case3 x i rest hne hnone ih1 =>
    intro cs' h
    simp [forestRemove, hne, hnone] at h
  | case4 x i rest hne rest' hsome ih1 =>
    intro cs' h
    simp [forestRemove, hne, hsome] at h
    subst h
    obtain ⟨a, b, c⟩ := ih1 rest' hsome
    refine ⟨?_, ?_, ?_⟩
    · simp only [forestTestCount]
      omega
    · intro y hy
      simp only [forestTestCount]
      rw [b y hy]
    · intro g hg
      simp only [forestEmptyGroups] at hg ⊢
      exact c g hg
  | case5 x gid gcs rest gcs' hsome hempty ih1 =>
    intro cs' h
    simp [forestRemove, hsome, hempty] at h
    subst h
    obtain ⟨a, b, c⟩ := ih1 gcs' hsome
    have hnil : gcs' = [] := List.isEmpty_iff.mp hempty
    subst hnil
    refine ⟨?_, ?_, ?_⟩
    · simp only [forestTestCount] at a ⊢
      omega
    · intro y hy
      have hb := b y hy
      simp only [forestTestCount] at hb ⊢
      omega
    · intro g hg
      simp only [forestEmptyGroups, List.mem_append]
      tauto
  | case6 x gid gcs rest gcs' hsome hnotempty ih1 =>
    intro cs' h
    simp [forestRemove, hsome, hnotempty] at h
    subst h
    obtain ⟨a, b, c⟩ := ih1 gcs' hsome
    refine ⟨?_, ?_, ?_⟩
    · simp only [forestTestCount]
      omega
    · intro y hy
      have hb := b y hy
      simp only [forestTestCount]
      omega
    · intro g hg
      have hc := fun h => c g h
      simp only [forestEmptyGroups, List.mem_append] at hg hc ⊢
      simp only [List.isEmpty_eq_true] at hnotempty
      simp [hnotempty] at hg
      tauto
  | case7 x gid gcs rest hgnone hrnone ih2 ih1 =>
    intro cs' h
    simp [forestRemove, hgnone, hrnone] at h
  | case8 x gid gcs rest hgnone rest' hrsome ih2 ih1 =>
    intro cs' h
    simp [forestRemove, hgnone, hrsome] at h
    subst h
    obtain ⟨a, b, c⟩ := ih1 rest' hrsome
    refine ⟨?_, ?_, ?_⟩
    · simp only [forestTestCount]
      omega
    · intro y hy
      have hb := b y hy
      simp only [forestTestCount]
      omega
    · intro g hg
      have hc := fun h => c g h
      simp only [forestEmptyGroups, List.mem_append] at hg hc ⊢
      tauto

/-- A search that finds nothing means the test is absent from the forest. -/
theorem forestRemove_none (cs : List TTree) (x : Nat) :
    forestRemove cs x = none → forestTestCount cs x = 0 := by
  induction cs, x using forestRemove.induct <;>
    intro h <;>
    simp_all [forestRemove, forestTestCount]

/-- C7: removing the one occurrence of a TestNode removes it from the tree, no
Group that became empty through the removal survives (every empty Group of the
result was already empty), and every other TestNode's occurrences are
preserved. -/
theorem c7_remove_prunes (cs : List TTree) (x : Nat)
    (h1 : forestTestCount cs x = 1) :
    forestTestCount (forestRemoveRoot cs x) x = 0
    ∧ (∀ y, y ≠ x →
        forestTestCount (forestRemoveRoot cs x) y = forestTestCount cs y)
    ∧ (∀ g, g ∈ forestEmptyGroups (forestRemoveRoot cs x) →
        g ∈ forestEmptyGroups cs) := by
  cases hrem : forestRemove cs x with
  | none =>
    exfalso
    have := forestRemove_none cs x hrem
    omega
  | some cs' =>
    have hroot : forestRemoveRoot cs x = cs' := by
      unfold forestRemoveRoot
      rw [hrem]
    rw [hroot]
    obtain ⟨hc, hy, hg⟩ := forestRemove_spec cs x cs' hrem
    exact ⟨by omega, hy, hg⟩

/-- C7 witness: removing the only test of a doubly-nested Group prunes both
now-empty ancestors while the sibling leaf survives. -/
theorem c7_remove_prunes_witness :
    forestTestCount [TTree.group 1 [TTree.group 2 [TTree.leafTest 7]],
        TTree.leafTest 8] 7 = 1
    ∧ forestTestCount (forestRemoveRoot
        [TTree.group 1 [TTree.group 2 [TTree.leafTest 7]], TTree.leafTest 8] 7) 7
      = 0 :=
  ⟨by simp [forestTestCount],
   (c7_remove_prunes [TTree.group 1 [TTree.group 2 [TTree.leafTest 7]],
      TTree.leafTest 8] 7 (by simp [forestTestCount])).1⟩

/-- The first index of an append whose prefix fails the test and whose next
element passes it is the prefix length. -/
theorem findIdx?_append_of_forall (p : Nat → Bool) (c : List Nat) (s0 : Nat)
    (s' : List Nat) (hc : ∀ a ∈ c, p a = false) (hs0 : p s0 = true) :
    (c ++ s0 :: s').findIdx? p = some c.length := by
  induction c with
  | nil => simp [hs0]
  | cons a c ih =>
    have ha : p a = false := hc a (List.mem_cons_self a c)
    have ih' := ih (fun x hx => hc x (List.mem_cons_of_mem a hx))
    simp [List.findIdx?_cons, ha, List.findIdx?_succ, ih']

/-- indexOf of the first element after a prefix not containing it. -/
theorem indexOf_append_self (s0 : Nat) (r s' : List Nat) (h : s0 ∉ r) :
    (r ++ s0 :: s').indexOf s0 = r.length := by
  induction r with
  | nil => simp
  | cons a r ih =>
    have hne : a ≠ s0 := fun e => h (e ▸ List.mem_cons_self a r)
    rw [List.cons_append, List.indexOf_cons_ne _ hne,
      ih (fun hm => h (List.mem_cons_of_mem a hm))]
    rfl

/-- getD at the prefix length of an append. -/
theorem getD_append_length (c : List Nat) (s0 : Nat) (s' : List Nat) :
    (c ++ s0 :: s').getD c.length 0 = s0 := by
  induction c with
  | nil => rfl
  | cons a c ih => simpa using ih

/-- The shared computation of `sendMinimalEventsIfNeeded` when the two routes
differ at the leaf-parent end and share the suffix starting at s0. -/
theorem sendMinimal_shared (c r : List Nat) (s0 : Nat) (s' : List Nat)
    (hc : ∀ a ∈ c, (r ++ s0 :: s').contains a = false)
    (hs0 : s0 ∉ r)
    (hne : (c ++ s0 :: s').head? ≠ (r ++ s0 :: s').head?) :
    sendMinimalEventsIfNeeded (c ++ s0 :: s') (r ++ s0 :: s')
      = c.map SuiteTransitionEvent.completedEvent
        ++ r.reverse.map SuiteTransitionEvent.runningEvent := by
  unfold sendMinimalEventsIfNeeded
  rw [if_neg (by simp), if_neg (by simp), if_neg hne]
  have hfind : (c ++ s0 :: s').findIdx?
      (fun x => (r ++ s0 :: s').contains x) = some c.length :=
    findIdx?_append_of_forall _ c s0 s' hc (by simp)
  rw [hfind]
  dsimp only
  rw [getD_append_length, indexOf_append_self s0 r s' hs0,
    List.take_left, List.take_left]

theorem c3_minimal_transition_events (c r s : List Nat) (leafId : Nat)
    (hs : s ≠ [])
    (hcd : ∀ a ∈ c, a ∉ r ++ s)
    (hrd : ∀ a ∈ r, a ∉ c ++ s) :
    sendMinimalEventsIfNeeded (c ++ s) (r ++ s)
      = c.map SuiteTransitionEvent.completedEvent
        ++ r.reverse.map SuiteTransitionEvent.runningEvent
    ∧ sendMinimalEventsIfNeeded (c ++ s) []
      = (c ++ s).map SuiteTransitionEvent.completedEvent
    ∧ onTestMatched (c ++ s) (r ++ s) leafId
      = (c.map SuiteTransitionEvent.completedEvent
          ++ r.reverse.map SuiteTransitionEvent.runningEvent).map
            ParserEvent.groupEvent
        ++ [ParserEvent.startedEvent leafId] := by
  obtain ⟨s0, s', rfl⟩ := List.exists_cons_of_ne_nil hs
  have hs0r : s0 ∉ r := fun hm => hrd s0 hm (by simp)
  have hcontains : ∀ a ∈ c, (r ++ s0 :: s').contains a = false := by
    intro a ha
    simpa using hcd a ha
  have hmain : sendMinimalEventsIfNeeded (c ++ s0 :: s') (r ++ s0 :: s')
      = c.map SuiteTransitionEvent.completedEvent
        ++ r.reverse.map SuiteTransitionEvent.runningEvent := by
    cases c with
    | nil =>
      cases r with
      | nil =>
        unfold sendMinimalEventsIfNeeded
        rw [if_neg (by simp), if_neg (by simp), if_pos rfl]
        simp
      | cons r0 r'' =>
        refine sendMinimal_shared [] (r0 :: r'') s0 s' (by simp) hs0r ?_
        intro heq
        simp only [List.nil_append, List.head?_cons, List.cons_append,
          Option.some.injEq] at heq
        exact hs0r (by rw [heq]; exact List.mem_cons_self r0 r'')
    | cons c0 c'' =>
      refine sendMinimal_shared (c0 :: c'') r s0 s' hcontains hs0r ?_
      intro heq
      have hc0 : c0 ∈ (r ++ s0 :: s') := by
        refine List.mem_of_mem_head? ?_
        rw [← heq]
        simp
      exact hcd c0 (List.mem_cons_self c0 c'') hc0
  refine ⟨hmain, ?_, ?_⟩
  · unfold sendMinimalEventsIfNeeded
    rw [if_neg (by simp)]
    simp
  · unfold onTestMatched
    rw [hmain]

/-- C3 witness: old route [1, 0], new route [2, 3, 0] (routes listed from the
leaf's parent to the root, sharing root 0): suite 1 gets its completed event,
suites 3 then 2 (outermost first) their running events, all before the leaf's
started event; at stream end both route suites close bottom-up. -/
theorem c3_minimal_transition_events_witness :
    (([0] : List Nat) ≠ []
      ∧ (∀ a ∈ ([1] : List Nat), a ∉ [2, 3] ++ [0])
      ∧ (∀ a ∈ ([2, 3] : List Nat), a ∉ [1] ++ [0]))
    ∧ (sendMinimalEventsIfNeeded ([1] ++ [0]) ([2, 3] ++ [0])
        = [1].map SuiteTransitionEvent.completedEvent
          ++ ([2, 3] : List Nat).reverse.map SuiteTransitionEvent.runningEvent
      ∧ sendMinimalEventsIfNeeded ([1] ++ [0]) []
        = ([1] ++ [0]).map SuiteTransitionEvent.completedEvent
      ∧ onTestMatched ([1] ++ [0]) ([2, 3] ++ [0]) 9
        = ([1].map SuiteTransitionEvent.completedEvent
            ++ ([2, 3] : List Nat).reverse.map SuiteTransitionEvent.runningEvent).map
              ParserEvent.groupEvent
          ++ [ParserEvent.startedEvent 9]) :=
  ⟨⟨by decide, by decide, by decide⟩,
   c3_minimal_transition_events [1] [2, 3] [0] 9 (by decide) (by decide) (by decide)⟩
